import Mathlib

/-!
# Formal model of the authenticated-proxy-with-token-refresh pattern

Shallow embedding of the serverless handlers in this repository
(`api/workspace.js`, `api/sheets/read_by_search.ts`, `api/realtime/offer.ts`).

JavaScript strings are modelled as lists of natural numbers (`Str`): each
element is one byte of the string's UTF-8 representation.  All byte-level
platform primitives used by the code (`encodeURIComponent`, `JSON.stringify`,
`JSON.parse`, `String.prototype.trim`, ...) are modelled as executable
functions on such lists, at the byte level, following the ECMAScript
behaviour on the inputs the code produces.  Network effects are modelled by
passing the provider's response in as an explicit environment and recording
the outbound calls the code would make in the returned value.
-/

namespace VaProxy

/-- A JavaScript string, as the list of bytes of its UTF-8 encoding. -/
abbrev Str := List Nat

/-- Bytes of a Lean string literal (all literals in the source are ASCII). -/
def toB (s : String) : Str := s.data.map Char.toNat

/-- JS truthiness of a string: only the empty string is falsy. -/
def jsTruthyS (s : Str) : Bool := !(s = [])

/-- JS `x || d` for a possibly-absent string `x` (absent and `''` are falsy). -/
def jsOrStr (x : Option Str) (d : Str) : Str :=
  match x with
  | none => d
  | some s => if s = [] then d else s

/-- JS `x ?? d` for a possibly-absent string (only absent/null yields `d`). -/
def jsNullStr (x : Option Str) (d : Str) : Str :=
  match x with
  | none => d
  | some s => s

/-- Whitespace bytes for `String.prototype.trim` (ASCII whitespace and NBSP). -/
def isWsB (b : Nat) : Bool := b = 32 || (9 ≤ b && b ≤ 13) || b = 160

/-- `String.prototype.trim`: strip leading and trailing whitespace. -/
def trimJs (s : Str) : Str := ((s.dropWhile isWsB).reverse.dropWhile isWsB).reverse

/-- `s.toLowerCase()` restricted to ASCII letters (hostnames are ASCII). -/
def lowerB (s : Str) : Str := s.map (fun b => if 65 ≤ b && b ≤ 90 then b + 32 else b)

/-- Does `l` start with `p`? (byte-wise `String.prototype.startsWith`). -/
def startsB : Str → Str → Bool
  | [], _ => true
  | _ :: _, [] => false
  | a :: as, b :: bs => a = b && startsB as bs

/-- `String.prototype.includes`: does `l` contain `sub` as a contiguous run? -/
def hasSubB (sub : Str) : Str → Bool
  | [] => startsB sub []
  | c :: tl => startsB sub (c :: tl) || hasSubB sub tl

/-- Does `l` end with `s`? -/
def endsB (s l : Str) : Bool := startsB s.reverse l.reverse

/-!
## Credential Set (the `GTokens` cookie record)

Field set and order follow the `GTokens` type declared in
`api/sheets/read_by_search.ts`; `access_token` is required there, the other
fields are optional.  An absent `access_token` in a foreign cookie is
modelled as the empty string (both are falsy in every check the code does).
-/

/-- One user's delegated authorization grant, as stored in the `gTokens` cookie. -/
structure GTokens where
  access_token : Str
  refresh_token : Option Str
  scope : Option Str
  token_type : Option Str
  expiry_date : Option Nat
  id_token : Option Str
deriving DecidableEq

/-!
## Token Refresher (`refreshAccessToken`, two copies)

The provider's token-endpoint response is passed in as an explicit
environment (`RefreshEnv`); the number of network calls the function would
perform is returned alongside the result.  A thrown `Error` is an
`Except.error`.
-/

/-- Fields of the provider's token-endpoint JSON that the code reads, plus the
`refresh_token` a refresh-grant response may or may not include (the code
never reads it). -/
structure RefreshData where
  access_token : Option Str
  token_type : Option Str
  scope : Option Str
  expires_in : Option Nat
  refresh_token : Option Str
deriving DecidableEq

/-- Environment for one token-endpoint exchange: the response's `ok` flag and
JSON body, and `Date.now()` at the time of the exchange. -/
structure RefreshEnv where
  ok : Bool
  data : RefreshData
  now : Nat
deriving DecidableEq

/-- The two failures `refreshAccessToken` can throw. -/
inductive RefreshErr where
  | noRefreshToken
  | providerRejected
deriving DecidableEq

/-- Result of a refresh attempt together with the number of network calls made. -/
structure RefreshOut where
  result : Except RefreshErr GTokens
  netCalls : Nat

/-- `api/workspace.js` `refreshAccessToken`: fail with no network call when the
refresh token is absent (or empty, both falsy); otherwise one token-endpoint
call; reject unless the response is ok and carries a truthy `access_token`;
on success replace `access_token`, `token_type` (`data.token_type || 'Bearer'`),
`scope` (`data.scope ?? tokens.scope`) and `expiry_date`
(`data.expires_in ? Date.now() + data.expires_in * 1000 : tokens.expiry_date`),
spreading the old record otherwise (so `refresh_token` is kept verbatim). -/
def refreshAccessTokenW (tokens : GTokens) (env : RefreshEnv) : RefreshOut :=
  match tokens.refresh_token with
  | none => ⟨.error .noRefreshToken, 0⟩
  | some rt =>
    if rt = [] then ⟨.error .noRefreshToken, 0⟩
    else
      let data := env.data
      if !env.ok || !(jsTruthyS (jsNullStr data.access_token [])) then
        ⟨.error .providerRejected, 1⟩
      else
        ⟨.ok { tokens with
            access_token := jsNullStr data.access_token []
            token_type := some (jsOrStr data.token_type (toB ("Bearer")))
            scope := match data.scope with
              | some s => some s
              | none => tokens.scope
            expiry_date := match data.expires_in with
              | some n => if n = 0 then tokens.expiry_date else some (env.now + n * 1000)
              | none => tokens.expiry_date }, 1⟩

/-- `api/sheets/read_by_search.ts` `refreshAccessToken`: identical shape, except
`token_type` uses `data.token_type ?? 'Bearer'` (nullish, not `||`). -/
def refreshAccessTokenR (tokens : GTokens) (env : RefreshEnv) : RefreshOut :=
  match tokens.refresh_token with
  | none => ⟨.error .noRefreshToken, 0⟩
  | some rt =>
    if rt = [] then ⟨.error .noRefreshToken, 0⟩
    else
      let data := env.data
      if !env.ok || !(jsTruthyS (jsNullStr data.access_token [])) then
        ⟨.error .providerRejected, 1⟩
      else
        ⟨.ok { tokens with
            access_token := jsNullStr data.access_token []
            scope := match data.scope with
              | some s => some s
              | none => tokens.scope
            token_type := some (jsNullStr data.token_type (toB ("Bearer")))
            expiry_date := match data.expires_in with
              | some n => if n = 0 then tokens.expiry_date else some (env.now + n * 1000)
              | none => tokens.expiry_date }, 1⟩

/-!
## Authenticated Call Wrapper (`withRefresh` / `withAutoRefresh`)

The builder is a function from an access token to a provider response; the
wrapper's outbound activity is recorded: the access tokens passed to the
builder, the number of refresher invocations and of token-endpoint network
calls, and the Token Store writes performed.
-/

/-- A provider response as the helpers shape it: `{ ok: r.ok, status: r.status, data }`. -/
structure JResp (δ : Type) where
  ok : Bool
  status : Nat
  data : δ
deriving DecidableEq

/-- Instrumented result of one wrapped call. -/
structure WrapOut (δ : Type) where
  result : Except RefreshErr (GTokens × JResp δ)
  builderCalls : List Str
  refreshCalls : Nat
  refreshNet : Nat
  cookieWrites : List GTokens

/-- `api/workspace.js` `withRefresh`: call the builder with the current access
token; return unchanged unless the response is a non-ok 401; then refresh
(a thrown refresh failure propagates, with no cookie write and no retry),
persist the refreshed record via the Token Store, and re-invoke the builder
once with the refreshed access token, returning that second response. -/
def withRefreshW {δ : Type} (tokens : GTokens) (call : Str → JResp δ)
    (renv : RefreshEnv) : WrapOut δ :=
  let out := call tokens.access_token
  if out.ok || out.status ≠ 401 then
    ⟨.ok (tokens, out), [tokens.access_token], 0, 0, []⟩
  else
    let r := refreshAccessTokenW tokens renv
    match r.result with
    | .error e => ⟨.error e, [tokens.access_token], 1, r.netCalls, []⟩
    | .ok t2 =>
      let out2 := call t2.access_token
      ⟨.ok (t2, out2), [tokens.access_token, t2.access_token], 1, r.netCalls, [t2]⟩

/-- Payload of a successful `withAutoRefresh` (read_by_search.ts): the tokens in
effect, the second (or only) response, and whether a refresh happened. -/
structure AutoOut (δ : Type) where
  tokens : GTokens
  ok : Bool
  status : Nat
  data : δ
  refreshed : Bool

/-- Instrumented result of `withAutoRefresh` (the caller writes the cookie). -/
structure WrapOutR (δ : Type) where
  result : Except RefreshErr (AutoOut δ)
  builderCalls : List Str
  refreshCalls : Nat
  refreshNet : Nat

/-- `api/sheets/read_by_search.ts` `withAutoRefresh`: same retry-once logic as
`withRefresh`, but it reports `refreshed` instead of writing the cookie. -/
def withAutoRefreshR {δ : Type} (tokens : GTokens) (call : Str → JResp δ)
    (renv : RefreshEnv) : WrapOutR δ :=
  let res := call tokens.access_token
  if res.ok || res.status ≠ 401 then
    ⟨.ok ⟨tokens, res.ok, res.status, res.data, false⟩, [tokens.access_token], 0, 0⟩
  else
    let r := refreshAccessTokenR tokens renv
    match r.result with
    | .error e => ⟨.error e, [tokens.access_token], 1, r.netCalls⟩
    | .ok t2 =>
      let res2 := call t2.access_token
      ⟨.ok ⟨t2, res2.ok, res2.status, res2.data, true⟩,
        [tokens.access_token, t2.access_token], 1, r.netCalls⟩

/-- The call-site convention of read_by_search.ts (`if (f1.refreshed)
setTokensCookie(res, req, f1.tokens)`): the Token Store writes performed for
one `withAutoRefresh` step.  A thrown refresh error skips the write. -/
def autoRefreshCookieWrites {δ : Type} (r : Except RefreshErr (AutoOut δ)) : List GTokens :=
  match r with
  | .ok o => if o.refreshed then [o.tokens] else []
  | .error _ => []

/-!
## Resource Resolver (`resolveFolderId` / `resolveFileByName`)

Disambiguation among drive-search candidates uses
`files.sort((a,b) => (a.name === q ? -1 : b.name === q ? 1 : 0)
                     || (b.modifiedTime || '').localeCompare(a.modifiedTime || ''))`
and then takes `files[0]`.  The comparator is modelled verbatim; the sort is
modelled as a stable comparison sort (ES2019+ requires `Array.prototype.sort`
to be stable): a left fold of ordered insertion, placing each element before
the first earlier element that compares strictly greater.
-/

/-- A drive search candidate: `files(id,name,modifiedTime)`. -/
structure DFile where
  id : Str
  name : Str
  modifiedTime : Str
deriving DecidableEq

/-- Sign-level model of `localeCompare` on the ASCII timestamp strings the
drive API returns (default-locale collation coincides with byte order there). -/
def lexCmp : Str → Str → Int
  | [], [] => 0
  | [], _ :: _ => -1
  | _ :: _, [] => 1
  | a :: as, b :: bs => if a < b then -1 else if b < a then 1 else lexCmp as bs

/-- JS `x || y` on comparator results (`0` is falsy). -/
def jsOrCmp (a b : Int) : Int := if a = 0 then b else a

/-- The comparator of `resolveFileByName` / `resolveFolderId` (also lines
177-178 of read_by_search.ts), verbatim. -/
def fileCmp (query : Str) (a b : DFile) : Int :=
  jsOrCmp (if a.name = query then -1 else if b.name = query then 1 else 0)
    (lexCmp b.modifiedTime a.modifiedTime)

/-- Insert `x` before the first element strictly greater than it (stable). -/
def insertCmp {α : Type} (cmp : α → α → Int) (x : α) : List α → List α
  | [] => [x]
  | y :: ys => if cmp x y < 0 then x :: y :: ys else y :: insertCmp cmp x ys

/-- Stable comparison sort modelling `Array.prototype.sort(cmp)`. -/
def sortJs {α : Type} (cmp : α → α → Int) (l : List α) : List α :=
  l.foldl (fun acc x => insertCmp cmp x acc) []

/-- The candidate the resolver picks: `files[0]` after the sort, `null` when
the candidate list is empty. -/
def selectFile (query : Str) (files : List DFile) : Option DFile :=
  match files with
  | [] => none
  | _ => (sortJs (fileCmp query) files).head?

/-!
## Drive query strings

`name.replace(/'/g, "\\'")` and the `' and '`-joined filter lists, verbatim.
-/

/-- `s.replace(/'/g, "\\'")`: escape single quotes for a drive query. -/
def escQ (s : Str) : Str := s.flatMap (fun b => if b = 39 then [92, 39] else [b])

/-- The folder-search query of `resolveFolderId`. -/
def qFolderFor (folderName : Str) : Str :=
  toB ("mimeType = 'application/vnd.google-apps.folder' and name contains '")
    ++ escQ folderName ++ toB ("' and trashed = false")

/-- The file-search query of `resolveFileByName` (optional parent filter). -/
def qFileFor (folderId : Option Str) (mimeType : Str) (name : Str) : Str :=
  (match folderId with
   | some fid => [39] ++ fid ++ toB ("' in parents and ")
   | none => [])
    ++ toB ("mimeType = '") ++ mimeType ++ toB ("' and name contains '")
    ++ escQ name ++ toB ("' and trashed = false")

/-!
## Workspace action handlers

The provider is an explicit environment: `drive q t` is the drive-search
response for query `q` under access token `t`, and `append id range t` the
sheets append response.  Each model returns the handler's HTTP status, its
`ok` flag, and the recorded outbound activity.  The `try/catch` of the
workspace `handler` (thrown `{status, body}` objects keep their status, any
other exception becomes a 500) is folded into each action model.
-/

/-- Provider environment for the workspace actions. -/
structure WsEnv (δ : Type) where
  drive : Str → Str → JResp (Option (List DFile))
  append : Str → Str → Str → JResp δ

/-- A resolver failure: a thrown `{status, body}` object or a propagated
refresh error. -/
inductive WsFail where
  | refreshFail (e : RefreshErr)
  | httpFail (status : Nat)
deriving DecidableEq

/-- Intermediate result of a resolver step, with recorded outbound activity. -/
structure StepOut (α : Type) where
  res : Except WsFail α
  builderCalls : List Str
  refreshCalls : Nat
  refreshNet : Nat
  cookieWrites : List GTokens

/-- `api/workspace.js` `resolveFolderId`: `undefined` for a falsy folder name
(no call at all); otherwise one wrapped folder search; throw on a non-ok
response; `undefined` when no candidate; else the sorted head's id. -/
def resolveFolderIdM {δ : Type} (tokens : GTokens) (env : WsEnv δ) (renv : RefreshEnv)
    (folderName : Str) : StepOut (Option Str) :=
  if folderName = [] then ⟨.ok none, [], 0, 0, []⟩
  else
    let w := withRefreshW tokens (fun t => env.drive (qFolderFor folderName) t) renv
    match w.result with
    | .error e => ⟨.error (.refreshFail e), w.builderCalls, w.refreshCalls, w.refreshNet, w.cookieWrites⟩
    | .ok (_, resp) =>
      if !resp.ok then
        ⟨.error (.httpFail resp.status), w.builderCalls, w.refreshCalls, w.refreshNet, w.cookieWrites⟩
      else
        let folders := resp.data.getD []
        if folders = [] then
          ⟨.ok none, w.builderCalls, w.refreshCalls, w.refreshNet, w.cookieWrites⟩
        else
          ⟨.ok ((selectFile folderName folders).map DFile.id),
            w.builderCalls, w.refreshCalls, w.refreshNet, w.cookieWrites⟩

/-- `api/workspace.js` `resolveFileByName`: one wrapped file search with the
parent filter; throw on a non-ok response; `null` when no candidate; else the
sorted head. -/
def resolveFileByNameM {δ : Type} (tokens : GTokens) (env : WsEnv δ) (renv : RefreshEnv)
    (name mimeType : Str) (folderId : Option Str) : StepOut (Option DFile) :=
  let w := withRefreshW tokens (fun t => env.drive (qFileFor folderId mimeType name) t) renv
  match w.result with
  | .error e => ⟨.error (.refreshFail e), w.builderCalls, w.refreshCalls, w.refreshNet, w.cookieWrites⟩
  | .ok (_, resp) =>
    if !resp.ok then
      ⟨.error (.httpFail resp.status), w.builderCalls, w.refreshCalls, w.refreshNet, w.cookieWrites⟩
    else
      ⟨.ok (selectFile name (resp.data.getD [])),
        w.builderCalls, w.refreshCalls, w.refreshNet, w.cookieWrites⟩

/-- What an action responds with, plus all recorded outbound activity. -/
structure ActionOut where
  status : Nat
  okFlag : Bool
  builderCalls : List Str
  refreshCalls : Nat
  refreshNet : Nat
  cookieWrites : List GTokens
deriving DecidableEq

/-- HTTP status after the workspace handler's `catch`: thrown `{status, body}`
objects keep their status, a refresh `Error` becomes a 500. -/
def catchStatus (f : WsFail) : Nat :=
  match f with
  | .httpFail s => s
  | .refreshFail _ => 500

/-- The parsed JSON body of a sheets append request.  `none` in `values`
models a `values` field that is absent or not an array
(`Array.isArray(b.values) ? b.values : []`). -/
structure AppendBody where
  fileName : Option Str
  folderName : Option Str
  tab : Option Str
  values : Option (List Nat)

/-- `api/workspace.js` `actSheetsAppendRow`: trim/default the fields, 400 on a
missing file name, 400 on an empty `values` array, then folder resolution,
file resolution (404 when absent) and one wrapped sheets append. -/
def actSheetsAppendRowM {δ : Type} (b : AppendBody) (tokens : GTokens)
    (env : WsEnv δ) (renv : RefreshEnv) : ActionOut :=
  let fileName := trimJs (jsOrStr b.fileName [])
  let folderName := trimJs (jsOrStr b.folderName [])
  let tab := trimJs (jsOrStr b.tab (toB ("Sheet1")))
  let values := b.values.getD []
  if fileName = [] then ⟨400, false, [], 0, 0, []⟩
  else if values = [] then ⟨400, false, [], 0, 0, []⟩
  else
    let s1 := resolveFolderIdM tokens env renv folderName
    match s1.res with
    | .error f =>
      ⟨catchStatus f, false, s1.builderCalls, s1.refreshCalls, s1.refreshNet, s1.cookieWrites⟩
    | .ok folderId =>
      let s2 := resolveFileByNameM tokens env renv fileName
        (toB ("application/vnd.google-apps.spreadsheet")) folderId
      let bc := s1.builderCalls ++ s2.builderCalls
      let rc := s1.refreshCalls + s2.refreshCalls
      let rn := s1.refreshNet + s2.refreshNet
      let cw := s1.cookieWrites ++ s2.cookieWrites
      match s2.res with
      | .error f => ⟨catchStatus f, false, bc, rc, rn, cw⟩
      | .ok none => ⟨404, false, bc, rc, rn, cw⟩
      | .ok (some file) =>
        let range := tab ++ [33] ++ toB ("A:Z")
        let w := withRefreshW tokens (fun t => env.append file.id range t) renv
        match w.result with
        | .error e =>
          ⟨catchStatus (.refreshFail e), false, bc ++ w.builderCalls,
            rc + w.refreshCalls, rn + w.refreshNet, cw ++ w.cookieWrites⟩
        | .ok (_, resp) =>
          ⟨if resp.ok then 200 else resp.status, resp.ok, bc ++ w.builderCalls,
            rc + w.refreshCalls, rn + w.refreshNet, cw ++ w.cookieWrites⟩

/-- `actDriveListRoot` (nested in the workspace handler): one wrapped drive
search for `'root' in parents and trashed = false`. -/
def actDriveListRootM {δ : Type} (tokens : GTokens) (env : WsEnv δ)
    (renv : RefreshEnv) : ActionOut :=
  let w := withRefreshW tokens (fun t => env.drive (toB ("'root' in parents and trashed = false")) t) renv
  match w.result with
  | .error e =>
    ⟨catchStatus (.refreshFail e), false, w.builderCalls, w.refreshCalls, w.refreshNet, w.cookieWrites⟩
  | .ok (_, resp) =>
    ⟨if resp.ok then 200 else resp.status, resp.ok, w.builderCalls,
      w.refreshCalls, w.refreshNet, w.cookieWrites⟩

/-- The 401 response of the workspace handler's auth precondition, with no
outbound activity. -/
def authFailOut : ActionOut := ⟨401, false, [], 0, 0, []⟩

/-- The workspace handler's auth gate and dispatch
(`if (!tokens?.access_token) return json(res, 401, ...)`): run the action
only when the cookie yielded a record with a truthy access token. -/
def workspaceHandle (topt : Option GTokens) (act : GTokens → ActionOut) : ActionOut :=
  match topt with
  | none => authFailOut
  | some t => if t.access_token = [] then authFailOut else act t

/-!
## Token Store (`setTokensCookie` / `getTokensFromCookie`)

`save` is `encodeURIComponent(JSON.stringify(tokens))` spliced into the
`gTokens` cookie; `load` extracts the cookie value with
`/(?:^|;\s*)gTokens=([^;]+)/`, `decodeURIComponent`s and `JSON.parse`s it,
returning `null` on any failure.  The platform primitives are modelled at
the byte level: percent-coding keeps the `encodeURIComponent` unreserved
set and emits `%XX` for every other byte; `JSON.stringify` quotes the
record's fields in declaration order with standard string escaping
(shorthand escapes, lowercase `\u00XX` for other control bytes) and decimal
numerals; the parse side accepts the full escape set and arbitrary pair
order, which covers `JSON.parse` on every string the store can produce.
-/

/-- Uppercase hexadecimal digit byte (as `encodeURIComponent` emits). -/
def hexUpper (n : Nat) : Nat := if n < 10 then 48 + n else 55 + n

/-- Lowercase hexadecimal digit byte (as `JSON.stringify`'s `\u00XX` emits). -/
def hexLower (n : Nat) : Nat := if n < 10 then 48 + n else 87 + n

/-- Value of one hexadecimal digit byte, either case. -/
def hexValB (b : Nat) : Option Nat :=
  if 48 ≤ b ∧ b ≤ 57 then some (b - 48)
  else if 65 ≤ b ∧ b ≤ 70 then some (b - 55)
  else if 97 ≤ b ∧ b ≤ 102 then some (b - 87)
  else none

/-- The characters `encodeURIComponent` leaves unescaped:
alphanumerics and `! ' ( ) * - . _ ~`. -/
def uriUnreserved (b : Nat) : Bool :=
  (48 ≤ b && b ≤ 57) || (65 ≤ b && b ≤ 90) || (97 ≤ b && b ≤ 122)
    || b = 33 || b = 39 || b = 40 || b = 41 || b = 42 || b = 45 || b = 46
    || b = 95 || b = 126

/-- `encodeURIComponent` at the byte level. -/
def percentEncode (s : Str) : Str :=
  s.flatMap (fun b => if uriUnreserved b then [b] else [37, hexUpper (b / 16), hexUpper (b % 16)])

/-- `decodeURIComponent` at the byte level; `none` models a thrown
`URIError` on a malformed escape. -/
def percentDecode : Str → Option Str
  | [] => some []
  | c :: rest =>
    if c = 37 then
      match rest with
      | h1 :: h2 :: rest2 =>
        match hexValB h1, hexValB h2 with
        | some a, some b => (percentDecode rest2).map (fun t => (a * 16 + b) :: t)
        | _, _ => none
      | _ => none
    else (percentDecode rest).map (fun t => c :: t)

/-- `JSON.stringify`'s escape of one string byte: `\"`, `\\`, the shorthand
control escapes, `\u00XX` for the remaining control bytes, else verbatim. -/
def escByte (b : Nat) : Str :=
  if b = 34 then [92, 34]
  else if b = 92 then [92, 92]
  else if b = 8 then [92, 98]
  else if b = 9 then [92, 116]
  else if b = 10 then [92, 110]
  else if b = 12 then [92, 102]
  else if b = 13 then [92, 114]
  else if b < 32 then [92, 117, 48, 48, hexLower (b / 16), hexLower (b % 16)]
  else [b]

/-- Escape a whole string body. -/
def escStr (s : Str) : Str := s.flatMap escByte

/-- A quoted JSON string literal. -/
def jsonQuote (s : Str) : Str := 34 :: escStr s ++ [34]

/-- Prepend a byte to the parsed part of a parser result. -/
def consFst (c : Nat) (r : Option (Str × Str)) : Option (Str × Str) :=
  r.map (fun p => (c :: p.1, p.2))

/-- Parse a JSON string body (after the opening quote) up to its closing
quote, decoding the escapes `JSON.parse` accepts on the store's output:
`\" \\ \/ \b \t \n \f \r` and four-digit `\uXXXX`. -/
def parseStringBody : Str → Option (Str × Str)
  | [] => none
  | c :: rest =>
    if c = 34 then some ([], rest)
    else if c = 92 then
      match rest with
      | [] => none
      | e :: rest2 =>
        if e = 34 then consFst 34 (parseStringBody rest2)
        else if e = 92 then consFst 92 (parseStringBody rest2)
        else if e = 47 then consFst 47 (parseStringBody rest2)
        else if e = 98 then consFst 8 (parseStringBody rest2)
        else if e = 116 then consFst 9 (parseStringBody rest2)
        else if e = 110 then consFst 10 (parseStringBody rest2)
        else if e = 102 then consFst 12 (parseStringBody rest2)
        else if e = 114 then consFst 13 (parseStringBody rest2)
        else if e = 117 then
          match rest2 with
          | h1 :: h2 :: h3 :: h4 :: rest3 =>
            match hexValB h1, hexValB h2, hexValB h3, hexValB h4 with
            | some a, some b, some c2, some d =>
              consFst (((a * 16 + b) * 16 + c2) * 16 + d) (parseStringBody rest3)
            | _, _, _, _ => none
          | _ => none
        else none
    else consFst c (parseStringBody rest)

/-- Little-endian decimal digits of `n` (fuel-indexed for structural
recursion; `fuel ≥ n` suffices). -/
def natDigsRev : Nat → Nat → List Nat
  | 0, _ => []
  | fuel + 1, n => if n = 0 then [] else n % 10 :: natDigsRev fuel (n / 10)

/-- The decimal numeral `JSON.stringify` emits for a natural number. -/
def natToDec (n : Nat) : Str :=
  if n = 0 then [48] else ((natDigsRev n n).map (fun d => d + 48)).reverse

/-- Is `b` an ASCII digit byte? -/
def isDigitB (b : Nat) : Bool := 48 ≤ b && b ≤ 57

/-- Little-endian value of a raw digit list (proof auxiliary relating
`natDigsRev` to the number it represents). -/
def ofDigs : List Nat → Nat
  | [] => 0
  | d :: ds => d + 10 * ofDigs ds

/-- Parse a decimal numeral prefix. -/
def parseNumber (l : Str) : Option (Nat × Str) :=
  let ds := l.takeWhile isDigitB
  if ds = [] then none
  else some (ds.foldl (fun a c => a * 10 + (c - 48)) 0, l.dropWhile isDigitB)

/-- A JSON value of the shapes the token record contains. -/
inductive JVal where
  | str (s : Str)
  | num (n : Nat)
deriving DecidableEq

/-- The serialized form of one JSON value. -/
def emitVal : JVal → Str
  | .str s => jsonQuote s
  | .num n => natToDec n

/-- Parse one JSON value (string or number). -/
def parseVal (l : Str) : Option (JVal × Str) :=
  match l with
  | [] => none
  | c :: rest =>
    if c = 34 then (parseStringBody rest).map (fun p => (.str p.1, p.2))
    else if isDigitB c then (parseNumber (c :: rest)).map (fun p => (.num p.1, p.2))
    else none

/-- One serialized `"key":value` pair. -/
def emitPair (p : Str × JVal) : Str := jsonQuote p.1 ++ [58] ++ emitVal p.2

/-- Comma-joined serialized pairs. -/
def emitPairs : List (Str × JVal) → Str
  | [] => []
  | [p] => emitPair p
  | p :: ps => emitPair p ++ 44 :: emitPairs ps

/-- Parse the pairs of a JSON object after its `{`, up to its `}` (the fuel
bounds the pair count; the caller passes the input length). -/
def parsePairs : Nat → Str → Option (List (Str × JVal) × Str)
  | 0, _ => none
  | fuel + 1, l =>
    match l with
    | 34 :: rest =>
      match parseStringBody rest with
      | none => none
      | some (k, l1) =>
        match l1 with
        | 58 :: l2 =>
          match parseVal l2 with
          | none => none
          | some (v, l3) =>
            match l3 with
            | 125 :: rest2 => some ([(k, v)], rest2)
            | 44 :: rest2 => (parsePairs fuel rest2).map (fun p => ((k, v) :: p.1, p.2))
            | _ => none
        | _ => none
    | _ => none

/-- Assoc lookup among parsed pairs (later duplicates shadowed, as in JS the
last write wins — the store never emits duplicates). -/
def lookupJ (k : Str) : List (Str × JVal) → Option JVal
  | [] => none
  | (k2, v) :: ps => if k2 = k then some v else lookupJ k ps

/-- A field's string value, when present with that shape. -/
def getStrField (ps : List (Str × JVal)) (k : Str) : Option Str :=
  match lookupJ k ps with
  | some (.str s) => some s
  | _ => none

/-- A field's numeric value, when present with that shape. -/
def getNumField (ps : List (Str × JVal)) (k : Str) : Option Nat :=
  match lookupJ k ps with
  | some (.num n) => some n
  | _ => none

/-- Rebuild the credential record from parsed pairs (a missing or non-string
`access_token` becomes the empty — falsy — string, matching how every
consumer checks it). -/
def tokensOfPairs (ps : List (Str × JVal)) : GTokens :=
  { access_token := (getStrField ps (toB ("access_token"))).getD []
    refresh_token := getStrField ps (toB ("refresh_token"))
    scope := getStrField ps (toB ("scope"))
    token_type := getStrField ps (toB ("token_type"))
    expiry_date := getNumField ps (toB ("expiry_date"))
    id_token := getStrField ps (toB ("id_token")) }

/-- The field list `JSON.stringify` serializes for a credential record:
every present field, in declaration order. -/
def tokenPairs (t : GTokens) : List (Str × JVal) :=
  (toB ("access_token"), .str t.access_token)
    :: ((t.refresh_token.map (fun s => (toB ("refresh_token"), JVal.str s))).toList
      ++ (t.scope.map (fun s => (toB ("scope"), JVal.str s))).toList
      ++ (t.token_type.map (fun s => (toB ("token_type"), JVal.str s))).toList
      ++ (t.expiry_date.map (fun n => (toB ("expiry_date"), JVal.num n))).toList
      ++ (t.id_token.map (fun s => (toB ("id_token"), JVal.str s))).toList)

/-- `JSON.stringify(tokens)`. -/
def stringifyTokens (t : GTokens) : Str := 123 :: emitPairs (tokenPairs t) ++ [125]

/-- `JSON.parse` of a serialized token object followed by the cast to
`GTokens`; `none` models a thrown `SyntaxError`. -/
def parseTokensJson (l : Str) : Option GTokens :=
  match l with
  | 123 :: rest =>
    if rest = [125] then some (tokensOfPairs [])
    else
      match parsePairs l.length rest with
      | some (ps, []) => some (tokensOfPairs ps)
      | _ => none
  | _ => none

/-- The cookie attributes `setTokensCookie` appends
(`Max-Age` is `60 * 60 * 24 * 30`). -/
def cookieAttrs : Str := toB ("; HttpOnly; Path=/; SameSite=Lax; Max-Age=2592000")

/-- The `Set-Cookie` string `setTokensCookie` produces: the percent-encoded
JSON record under the `gTokens` name, the fixed attributes, and `Secure`
except on a localhost/loopback host. -/
def setCookieStr (t : GTokens) (host : Str) : Str :=
  let base := toB ("gTokens=") ++ percentEncode (stringifyTokens t) ++ cookieAttrs
  if hasSubB (toB ("localhost")) (lowerB host) || hasSubB (toB ("127.0.0.1")) (lowerB host)
  then base else base ++ toB ("; Secure")

/-- Try the cookie regex at one position: `gTokens=` followed by a non-empty
`[^;]+` capture. -/
def matchGTokensAt (l : Str) : Option Str :=
  if startsB (toB ("gTokens=")) l then
    let v := (l.drop 8).takeWhile (fun b => b ≠ 59)
    if v = [] then none else some v
  else none

/-- Scan for `;\s*gTokens=` (the non-anchored alternative of the regex). -/
def cookieSearchTail : Str → Option Str
  | [] => none
  | c :: rest =>
    if c = 59 then
      match matchGTokensAt (rest.dropWhile isWsB) with
      | some v => some v
      | none => cookieSearchTail rest
    else cookieSearchTail rest

/-- The capture of `/(?:^|;\s*)gTokens=([^;]+)/` on a cookie header. -/
def cookieValue (l : Str) : Option Str :=
  match matchGTokensAt l with
  | some v => some v
  | none => cookieSearchTail l

/-- `getTokensFromCookie`: extract, percent-decode and parse; `null` on any
failure. -/
def getTokensFromCookieM (cookieHeader : Str) : Option GTokens :=
  (cookieValue cookieHeader).bind (fun enc => (percentDecode enc).bind parseTokensJson)

/-- Well-formedness of a credential record as a JS value: every string field
is a byte string (each element below 256). -/
def strWFb (s : Str) : Bool := s.all (fun b => b < 256)

/-- Boolean well-formedness of every string field of a credential record. -/
def tokensWFb (t : GTokens) : Bool :=
  strWFb t.access_token && strWFb (t.refresh_token.getD [])
    && strWFb (t.scope.getD []) && strWFb (t.token_type.getD [])
    && strWFb (t.id_token.getD [])

/-!
## Realtime-audio negotiation proxy (`api/realtime/offer.ts`)
-/

/-- The upstream realtime endpoint's response, as an environment. -/
structure OfferEnv where
  upstreamOk : Bool
  upstreamStatus : Nat
deriving DecidableEq

/-- The offer handler's response status and how many outbound proxy calls it made. -/
structure OfferOut where
  status : Nat
  proxyCalls : Nat
deriving DecidableEq

/-- `isAllowedOrigin`: permissive when no `ALLOWED_ORIGIN` is configured or no
origin is sent; exact match; or the preview-deployment pattern
`^https:\/\/va-button-test01-.*\.vercel\.app$` (where `.` excludes line
terminators). -/
def isAllowedOriginM (mainOrigin origin : Str) : Bool :=
  if mainOrigin = [] then true
  else if origin = [] then true
  else if origin = mainOrigin then true
  else
    let p := toB ("https://va-button-test01-")
    let s := toB (".vercel.app")
    decide (p.length + s.length ≤ origin.length) && startsB p origin && endsB s origin
      && ((origin.drop p.length).take (origin.length - p.length - s.length)).all
          (fun b => b ≠ 10 && b ≠ 13)

/-- `api/realtime/offer.ts` `handler`: 405 unless POST, 403 on a disallowed
origin, 500 on a missing (falsy) API key, 400 unless the `Content-Type`
header contains `application/sdp` — all before the single outbound proxy
call, whose non-ok status is passed through and whose success yields 200. -/
def offerHandler (method origin ct : Str) (apiKey : Option Str)
    (mainOrigin : Str) (env : OfferEnv) : OfferOut :=
  if method ≠ toB ("POST") then ⟨405, 0⟩
  else if !isAllowedOriginM mainOrigin origin then ⟨403, 0⟩
  else if jsOrStr apiKey [] = [] then ⟨500, 0⟩
  else if !hasSubB (toB ("application/sdp")) ct then ⟨400, 0⟩
  else if !env.upstreamOk then ⟨env.upstreamStatus, 1⟩
  else ⟨200, 1⟩

/-!
## Concrete instances used by counterexamples and witnesses
-/

/-- A credential record with a refresh token, for the refresh-failure runs. -/
def c2Tokens : GTokens := ⟨toB ("a"), some (toB ("r")), none, none, none, none⟩

/-- A builder that answers 401 to every access token. -/
def c2Call : Str → JResp Nat := fun _ => ⟨false, 401, 0⟩

/-- A token-endpoint environment whose response is a rejection. -/
def c2Renv : RefreshEnv := ⟨false, ⟨none, none, none, none, none⟩, 0⟩

/-- A credential record for the refresh-success runs. -/
def c1Tokens : GTokens := ⟨toB ("old"), some (toB ("r")), none, none, none, none⟩

/-- A builder that answers 401 to the stale token and 200 to the fresh one. -/
def c1Call : Str → JResp Nat := fun t => if t = toB ("old") then ⟨false, 401, 1⟩ else ⟨true, 200, 2⟩

/-- A token-endpoint environment that issues a new access token (and even a
new refresh token, which the code discards). -/
def c1Renv : RefreshEnv :=
  ⟨true, ⟨some (toB ("new")), some (toB ("Bearer")), none, some 3600, some (toB ("newref"))⟩, 1000⟩

/-- The refreshed record `refreshAccessToken` produces for `c1Tokens` under
`c1Renv`. -/
def c1T2 : GTokens := ⟨toB ("new"), some (toB ("r")), none, some (toB ("Bearer")), some 3601000, none⟩

/-- An expired credential record (epoch expiry) with no refresh token but a
non-empty access token. -/
def c7Tokens : GTokens := ⟨toB ("x"), none, none, none, some 0, none⟩

/-- A provider environment whose drive search succeeds. -/
def c7Env : WsEnv Nat := ⟨fun _ _ => ⟨true, 200, some []⟩, fun _ _ _ => ⟨true, 200, 0⟩⟩

/-- An idle token-endpoint environment (never consulted in the C7 run). -/
def c7Renv : RefreshEnv := ⟨true, ⟨none, none, none, none, none⟩, 0⟩

/-- A credential record exercising every escaping path of the Token Store:
a quote, a backslash, a control byte and a high (non-ASCII) byte in the
access token, a space in the scope, and a millisecond-epoch expiry. -/
def c6Tokens : GTokens :=
  ⟨[34, 92, 10, 200, 97], some (toB ("1//abc")), some (toB ("drive gmail")),
    some (toB ("Bearer")), some 1767139200000, none⟩

/-- Of the two exact matches in the C5 candidate list, the more recently
modified one (listed first, as the drive API may return it). -/
def c5New : DFile := ⟨toB ("id1"), toB ("Budget"), toB ("2024-06-01")⟩

/-- The older of the two exact matches in the C5 candidate list. -/
def c5Old : DFile := ⟨toB ("id2"), toB ("Budget"), toB ("2024-01-01")⟩

/-!
## Lemmas about the resolver's comparator and sort
-/

/-- The resolver's comparator answers `-1` outright whenever its first
argument is an exact name match — the timestamp tie-break is unreachable in
that case. -/
theorem fileCmp_exact_left {query : Str} {a b : DFile} (h : a.name = query) :
    fileCmp query a b = -1 := by
  simp [fileCmp, jsOrCmp, h]

/-- Against an exact match, a non-exact first argument compares greater. -/
theorem fileCmp_exact_right {query : Str} {a b : DFile} (ha : ¬a.name = query)
    (hb : b.name = query) : fileCmp query a b = 1 := by
  simp [fileCmp, jsOrCmp, ha, hb]

/-- Invariant of the insertion fold behind `sortJs` for a list whose only
exact match (up to equality of records) is `e`: once `e` is at the head of
the accumulator it stays there, and it arrives there when consumed. -/
theorem sortJs_head_exact (query : Str) (e : DFile) (he : e.name = query) :
    ∀ (l acc : List DFile),
      (∀ f ∈ l, f.name = query → f = e) →
      (acc.head? = some e ∨ (e ∈ l ∧ ∀ h, acc.head? = some h → ¬h.name = query)) →
      (l.foldl (fun acc x => insertCmp (fileCmp query) x acc) acc).head? = some e := by
  intro l
  induction l with
  | nil =>
    intro acc _ hinv
    rcases hinv with h | ⟨h, _⟩
    · simpa using h
    · simp at h
  | cons x tl ih =>
    intro acc huniq hinv
    simp only [List.foldl_cons]
    refine ih (insertCmp (fileCmp query) x acc) (fun f hf hn => huniq f (List.mem_cons_of_mem x hf) hn) ?_
    rcases hinv with hacc | ⟨hmem, hne⟩
    · left
      rcases hax : acc with _ | ⟨a, t⟩
      · simp [hax] at hacc
      · have ha : a = e := by simpa [hax] using hacc
        by_cases hx : x = e
        · subst hx
          have : fileCmp query x a < 0 := by
            rw [fileCmp_exact_left he]; decide
          simp [insertCmp, this]
        · have hxn : ¬x.name = query := fun hn => hx (huniq x (List.mem_cons_self x tl) hn)
          have : ¬fileCmp query x a < 0 := by
            rw [ha, fileCmp_exact_right hxn he]; decide
          rw [ha] at this
          simp [insertCmp, this, ha]
    · by_cases hx : x = e
      · subst hx
        left
        rcases hax : acc with _ | ⟨a, t⟩
        · simp [insertCmp]
        · have ha : ¬a.name = query := hne a (by simp [hax])
          have : fileCmp query x a < 0 := by
            rw [fileCmp_exact_left he]; decide
          simp [insertCmp, this]
      · have hmem2 : e ∈ tl := by
          rcases List.mem_cons.mp hmem with h | h
          · exact absurd h.symm hx
          · exact h
        have hxn : ¬x.name = query := fun hn => hx (huniq x (List.mem_cons_self x tl) hn)
        right
        refine ⟨hmem2, ?_⟩
        rcases hax : acc with _ | ⟨a, t⟩
        · intro h hh
          simp [insertCmp] at hh
          subst hh
          exact hxn
        · intro h hh
          by_cases hlt : fileCmp query x a < 0
          · simp [insertCmp, hlt] at hh
            subst hh
            exact hxn
          · simp [insertCmp, hlt] at hh
            subst hh
            exact hne a (by simp [hax])

/-!
## Lemmas about the Token Store codecs
-/

/-- Decoding inverts the uppercase hexadecimal digit of a nibble. -/
theorem hexValB_hexUpper {n : Nat} (h : n < 16) : hexValB (hexUpper n) = some n := by
  unfold hexValB hexUpper
  by_cases hn : n < 10
  · rw [if_pos hn, if_pos (by omega)]
    congr 1
    omega
  · rw [if_neg hn, if_neg (by omega), if_pos (by omega)]
    congr 1
    omega

/-- Decoding inverts the lowercase hexadecimal digit of a nibble. -/
theorem hexValB_hexLower {n : Nat} (h : n < 16) : hexValB (hexLower n) = some n := by
  unfold hexValB hexLower
  by_cases hn : n < 10
  · rw [if_pos hn, if_pos (by omega)]
    congr 1
    omega
  · rw [if_neg hn, if_neg (by omega), if_neg (by omega), if_pos (by omega)]
    congr 1
    omega

/-- A hexadecimal digit byte is never the semicolon. -/
theorem hexUpper_ne59 (n : Nat) : hexUpper n ≠ 59 := by
  unfold hexUpper
  by_cases hn : n < 10 <;> simp [hn] <;> omega

/-- One encoded byte, unfolded. -/
theorem percentEncode_cons (b : Nat) (t : Str) :
    percentEncode (b :: t) =
      (if uriUnreserved b then [b] else [37, hexUpper (b / 16), hexUpper (b % 16)])
        ++ percentEncode t := by
  simp [percentEncode]

/-- Percent-decoding inverts percent-encoding on byte strings. -/
theorem percentDecode_encode : ∀ s : Str, (∀ b ∈ s, b < 256) →
    percentDecode (percentEncode s) = some s := by
  intro s
  induction s with
  | nil => intro _; rfl
  | cons b t ih =>
    intro h
    have hb : b < 256 := h b (List.mem_cons_self b t)
    have ht := ih (fun x hx => h x (List.mem_cons_of_mem b hx))
    rw [percentEncode_cons]
    by_cases hu : uriUnreserved b
    · have hb37 : ¬b = 37 := by
        intro e
        rw [e] at hu
        exact absurd hu (by decide)
      rw [if_pos hu]
      simp only [List.singleton_append]
      rw [percentDecode.eq_def]
      simp only []
      rw [if_neg hb37, ht]
      rfl
    · have h1 : hexValB (hexUpper (b / 16)) = some (b / 16) := hexValB_hexUpper (by omega)
      have h2 : hexValB (hexUpper (b % 16)) = some (b % 16) := hexValB_hexUpper (by omega)
      have hdm : b / 16 * 16 + b % 16 = b := by omega
      rw [if_neg hu]
      simp only [List.cons_append, List.nil_append]
      rw [percentDecode.eq_def]
      simp [h1, h2, ht, hdm]

/-- No byte of a percent-encoded string is the semicolon (the cookie-value
terminator). -/
theorem percentEncode_ne59 (s : Str) : ∀ b ∈ percentEncode s, b ≠ 59 := by
  intro b hb
  rcases List.mem_flatMap.mp hb with ⟨a, _, hmem⟩
  by_cases hu : uriUnreserved a
  · rw [if_pos hu] at hmem
    simp at hmem
    subst hmem
    intro e
    rw [e] at hu
    exact absurd hu (by decide)
  · rw [if_neg hu] at hmem
    simp at hmem
    rcases hmem with h | h | h <;> subst h
    · decide
    · exact hexUpper_ne59 _
    · exact hexUpper_ne59 _

/-- A list starts with itself. -/
theorem startsB_append : ∀ p r : Str, startsB p (p ++ r) = true := by
  intro p
  induction p with
  | nil => intro r; rfl
  | cons a as ih => intro r; simp [startsB, ih]

/-- `takeWhile`/`dropWhile` split an append whose left part satisfies the
predicate and whose right part starts with a failing byte. -/
theorem takeWhile_append_all {p : Nat → Bool} : ∀ xs ys : Str,
    (∀ b ∈ xs, p b = true) → (∀ b, ys.head? = some b → p b = false) →
    (xs ++ ys).takeWhile p = xs ∧ (xs ++ ys).dropWhile p = ys := by
  intro xs
  induction xs with
  | nil =>
    intro ys _ hy
    rcases ys with _ | ⟨y, ys⟩
    · exact ⟨rfl, rfl⟩
    · have := hy y rfl
      simp [List.takeWhile, List.dropWhile, this]
  | cons x xs ih =>
    intro ys hx hy
    have hpx : p x = true := hx x (List.mem_cons_self x xs)
    have := ih ys (fun b hb => hx b (List.mem_cons_of_mem x hb)) hy
    simp [List.takeWhile, List.dropWhile, hpx, this.1, this.2]

/-- Parsing a JSON string body inverts the store's escaping: the escaped
bytes followed by the closing quote and anything else parse back to the
original bytes with the remainder untouched. -/
theorem parseStringBody_escape : ∀ s rest : Str,
    parseStringBody (escStr s ++ 34 :: rest) = some (s, rest) := by
  intro s
  induction s with
  | nil =>
    intro rest
    show parseStringBody (34 :: rest) = some ([], rest)
    rw [parseStringBody.eq_def]
    simp
  | cons b t ih =>
    intro rest
    have hesc : escStr (b :: t) = escByte b ++ escStr t := by simp [escStr]
    rw [hesc, List.append_assoc]
    by_cases h34 : b = 34
    · subst h34
      rw [show escByte 34 = [92, 34] from rfl, List.cons_append, List.cons_append,
        List.nil_append, parseStringBody.eq_def]
      simp [consFst, ih]
    · by_cases h92 : b = 92
      · subst h92
        rw [show escByte 92 = [92, 92] from rfl, List.cons_append, List.cons_append,
          List.nil_append, parseStringBody.eq_def]
        simp [consFst, ih]
      · by_cases h8 : b = 8
        · subst h8
          rw [show escByte 8 = [92, 98] from rfl, List.cons_append, List.cons_append,
            List.nil_append, parseStringBody.eq_def]
          simp [consFst, ih]
        · by_cases h9 : b = 9
          · subst h9
            rw [show escByte 9 = [92, 116] from rfl, List.cons_append, List.cons_append,
              List.nil_append, parseStringBody.eq_def]
            simp [consFst, ih]
          · by_cases h10 : b = 10
            · subst h10
              rw [show escByte 10 = [92, 110] from rfl, List.cons_append, List.cons_append,
                List.nil_append, parseStringBody.eq_def]
              simp [consFst, ih]
            · by_cases h12 : b = 12
              · subst h12
                rw [show escByte 12 = [92, 102] from rfl, List.cons_append, List.cons_append,
                  List.nil_append, parseStringBody.eq_def]
                simp [consFst, ih]
              · by_cases h13 : b = 13
                · subst h13
                  rw [show escByte 13 = [92, 114] from rfl, List.cons_append, List.cons_append,
                    List.nil_append, parseStringBody.eq_def]
                  simp [consFst, ih]
                · by_cases hlt : b < 32
                  · have e1 : hexValB (hexLower (b / 16)) = some (b / 16) :=
                      hexValB_hexLower (by omega)
                    have e2 : hexValB (hexLower (b % 16)) = some (b % 16) :=
                      hexValB_hexLower (by omega)
                    have hdm : ((0 * 16 + 0) * 16 + b / 16) * 16 + b % 16 = b := by omega
                    rw [show escByte b = [92, 117, 48, 48, hexLower (b / 16), hexLower (b % 16)]
                        from by
                      simp only [escByte, if_neg h34, if_neg h92, if_neg h8, if_neg h9,
                        if_neg h10, if_neg h12, if_neg h13, if_pos hlt]]
                    simp only [List.cons_append, List.nil_append]
                    rw [parseStringBody.eq_def]
                    have e0 : hexValB 48 = some 0 := rfl
                    simp [consFst, e0, e1, e2, ih, hdm]
                    try omega
                  · rw [show escByte b = [b] from by
                      simp only [escByte, if_neg h34, if_neg h92, if_neg h8, if_neg h9,
                        if_neg h10, if_neg h12, if_neg h13, if_neg hlt]]
                    simp only [List.cons_append, List.nil_append]
                    rw [parseStringBody.eq_def]
                    simp only []
                    rw [if_neg h34, if_neg h92]
                    simp [consFst, ih]

/-- `natDigsRev` represents its input (with enough fuel). -/
theorem ofDigs_natDigsRev : ∀ fuel n : Nat, n ≤ fuel → ofDigs (natDigsRev fuel n) = n := by
  intro fuel
  induction fuel with
  | zero =>
    intro n h
    have h0 : n = 0 := by omega
    subst h0
    rfl
  | succ f ih =>
    intro n h
    by_cases h0 : n = 0
    · subst h0; rfl
    · have hdiv : n / 10 ≤ f := by
        have : n / 10 < n := Nat.div_lt_self (Nat.pos_of_ne_zero h0) (by omega)
        omega
      simp only [natDigsRev, if_neg h0, ofDigs, ih _ hdiv]
      omega

/-- Every raw digit is below ten. -/
theorem natDigsRev_lt10 : ∀ fuel n d : Nat, d ∈ natDigsRev fuel n → d < 10 := by
  intro fuel
  induction fuel with
  | zero => intro n d h; simp [natDigsRev] at h
  | succ f ih =>
    intro n d h
    by_cases h0 : n = 0
    · simp [natDigsRev, h0] at h
    · simp only [natDigsRev, if_neg h0, List.mem_cons] at h
      rcases h with h | h
      · omega
      · exact ih _ _ h

/-- Folding the decimal parser over reversed, offset digits. -/
theorem foldl_digits : ∀ (ds : List Nat) (acc : Nat),
    List.foldl (fun a c => a * 10 + (c - 48)) acc ((ds.map (fun d => d + 48)).reverse)
      = acc * 10 ^ ds.length + ofDigs ds := by
  intro ds
  induction ds with
  | nil => intro acc; simp [ofDigs]
  | cons d tl ih =>
    intro acc
    simp only [List.map_cons, List.reverse_cons, List.foldl_append, ih, List.foldl_cons,
      List.foldl_nil, List.length_cons, ofDigs, pow_succ]
    have : d + 48 - 48 = d := by omega
    rw [this]
    ring

/-- Every byte of a decimal numeral is a digit byte. -/
theorem natToDec_mem : ∀ n b : Nat, b ∈ natToDec n → 48 ≤ b ∧ b ≤ 57 := by
  intro n b hb
  unfold natToDec at hb
  by_cases h0 : n = 0
  · rw [if_pos h0] at hb
    simp at hb
    omega
  · rw [if_neg h0] at hb
    rw [List.mem_reverse] at hb
    rcases List.mem_map.mp hb with ⟨d, hd, rfl⟩
    have := natDigsRev_lt10 n n d hd
    omega

/-- A decimal numeral is never empty. -/
theorem natToDec_ne_nil (n : Nat) : natToDec n ≠ [] := by
  unfold natToDec
  by_cases h0 : n = 0
  · simp [h0]
  · rw [if_neg h0]
    rcases hn : n with _ | f
    · exact absurd hn h0
    · simp only [natDigsRev, ← hn, if_neg h0]
      simp

/-- The decimal parser's fold inverts `natToDec`. -/
theorem decVal_natToDec (n : Nat) :
    List.foldl (fun a c => a * 10 + (c - 48)) 0 (natToDec n) = n := by
  unfold natToDec
  by_cases h0 : n = 0
  · subst h0; rfl
  · rw [if_neg h0, foldl_digits, ofDigs_natDigsRev n n le_rfl]
    simp

/-- `parseNumber` inverts `natToDec` when the remainder starts with a
non-digit. -/
theorem parseNumber_natToDec (n : Nat) (rest : Str)
    (hrest : ∀ b, rest.head? = some b → isDigitB b = false) :
    parseNumber (natToDec n ++ rest) = some (n, rest) := by
  have hall : ∀ b ∈ natToDec n, isDigitB b = true := by
    intro b hb
    have := natToDec_mem n b hb
    simp [isDigitB]
    omega
  obtain ⟨ht, hd⟩ := takeWhile_append_all (natToDec n) rest hall hrest
  simp only [parseNumber, ht, hd]
  rw [if_neg (natToDec_ne_nil n), decVal_natToDec]

/-- `parseVal` inverts `emitVal` when the remainder starts with a
non-digit. -/
theorem parseVal_emit (v : JVal) (rest : Str)
    (hrest : ∀ b, rest.head? = some b → isDigitB b = false) :
    parseVal (emitVal v ++ rest) = some (v, rest) := by
  cases v with
  | str s =>
    simp only [emitVal, jsonQuote, List.cons_append, List.append_assoc, List.singleton_append]
    rw [parseVal.eq_def]
    simp [parseStringBody_escape]
  | num n =>
    rcases hnd : natToDec n with _ | ⟨d, ds⟩
    · exact absurd hnd (natToDec_ne_nil n)
    · have hd : 48 ≤ d ∧ d ≤ 57 := natToDec_mem n d (by rw [hnd]; exact List.mem_cons_self d ds)
      have h34 : ¬d = 34 := by omega
      have hdig : isDigitB d = true := by simp [isDigitB]; omega
      simp only [emitVal, hnd, List.cons_append]
      rw [parseVal.eq_def]
      simp only []
      rw [if_neg h34, if_pos hdig, ← List.cons_append, ← hnd, parseNumber_natToDec n rest hrest]
      rfl

/-- Parsing needs no more fuel than one plus the emitted length. -/
theorem length_le_emitPairs : ∀ ps : List (Str × JVal), ps.length ≤ (emitPairs ps).length + 1 := by
  intro ps
  induction ps with
  | nil => simp [emitPairs]
  | cons p tl ih =>
    rcases tl with _ | ⟨q, tq⟩
    · simp [emitPairs]
    · simp only [emitPairs, List.length_append, List.length_cons] at ih ⊢
      omega

/-- `parsePairs` inverts `emitPairs` followed by the closing brace. -/
theorem parsePairs_emit : ∀ (ps : List (Str × JVal)) (fuel : Nat), ps ≠ [] → ps.length ≤ fuel →
    parsePairs fuel (emitPairs ps ++ [125]) = some (ps, []) := by
  intro ps
  induction ps with
  | nil => intro fuel h; exact absurd rfl h
  | cons p tl ih =>
    intro fuel _ hlen
    obtain ⟨k, v⟩ := p
    rcases fuel with _ | f
    · simp at hlen
    rcases tl with _ | ⟨q, tq⟩
    · have hv : parseVal (emitVal v ++ [125]) = some (v, [125]) := by
        refine parseVal_emit v [125] ?_
        intro b hb
        simp at hb
        subst hb
        decide
      simp only [emitPairs, emitPair, jsonQuote, List.cons_append, List.append_assoc,
        List.singleton_append]
      rw [parsePairs.eq_def]
      simp only []
      rw [parseStringBody_escape]
      simp only [List.nil_append]
      rw [hv]
    · have hv : parseVal (emitVal v ++ 44 :: (emitPairs (q :: tq) ++ [125]))
          = some (v, 44 :: (emitPairs (q :: tq) ++ [125])) := by
        refine parseVal_emit v _ ?_
        intro b hb
        simp at hb
        subst hb
        decide
      have hih : parsePairs f (emitPairs (q :: tq) ++ [125]) = some (q :: tq, []) := by
        refine ih f (by simp) ?_
        simp only [List.length_cons] at hlen ⊢
        omega
      simp only [emitPairs, emitPair, jsonQuote, List.cons_append, List.append_assoc,
        List.singleton_append]
      rw [parsePairs.eq_def]
      simp only []
      rw [parseStringBody_escape]
      simp only [List.nil_append]
      rw [hv]
      simp only []
      rw [hih]
      rfl

/-- The six cookie-record field names are pairwise distinct (all ordered
pairs, as the lookups compare them). -/
theorem keysNe :
    toB ("access_token") ≠ toB ("refresh_token") ∧
    toB ("access_token") ≠ toB ("scope") ∧
    toB ("access_token") ≠ toB ("token_type") ∧
    toB ("access_token") ≠ toB ("expiry_date") ∧
    toB ("access_token") ≠ toB ("id_token") ∧
    toB ("refresh_token") ≠ toB ("access_token") ∧
    toB ("refresh_token") ≠ toB ("scope") ∧
    toB ("refresh_token") ≠ toB ("token_type") ∧
    toB ("refresh_token") ≠ toB ("expiry_date") ∧
    toB ("refresh_token") ≠ toB ("id_token") ∧
    toB ("scope") ≠ toB ("access_token") ∧
    toB ("scope") ≠ toB ("refresh_token") ∧
    toB ("scope") ≠ toB ("token_type") ∧
    toB ("scope") ≠ toB ("expiry_date") ∧
    toB ("scope") ≠ toB ("id_token") ∧
    toB ("token_type") ≠ toB ("access_token") ∧
    toB ("token_type") ≠ toB ("refresh_token") ∧
    toB ("token_type") ≠ toB ("scope") ∧
    toB ("token_type") ≠ toB ("expiry_date") ∧
    toB ("token_type") ≠ toB ("id_token") ∧
    toB ("expiry_date") ≠ toB ("access_token") ∧
    toB ("expiry_date") ≠ toB ("refresh_token") ∧
    toB ("expiry_date") ≠ toB ("scope") ∧
    toB ("expiry_date") ≠ toB ("token_type") ∧
    toB ("expiry_date") ≠ toB ("id_token") ∧
    toB ("id_token") ≠ toB ("access_token") ∧
    toB ("id_token") ≠ toB ("refresh_token") ∧
    toB ("id_token") ≠ toB ("scope") ∧
    toB ("id_token") ≠ toB ("token_type") ∧
    toB ("id_token") ≠ toB ("expiry_date") := by decide

/-- Rebuilding the record from its own serialized field list is the
identity. -/
theorem tokensOfPairs_tokenPairs (t : GTokens) : tokensOfPairs (tokenPairs t) = t := by
  obtain ⟨n01, n02, n03, n04, n05, n06, n07, n08, n09, n10,
    n11, n12, n13, n14, n15, n16, n17, n18, n19, n20,
    n21, n22, n23, n24, n25, n26, n27, n28, n29, n30⟩ := keysNe
  obtain ⟨a, rt, sc, tt, ed, it⟩ := t
  rcases rt <;> rcases sc <;> rcases tt <;> rcases ed <;> rcases it <;>
    simp [tokensOfPairs, tokenPairs, getStrField, getNumField, lookupJ,
      n01, n02, n03, n04, n05, n06, n07, n08, n09, n10,
      n11, n12, n13, n14, n15, n16, n17, n18, n19, n20,
      n21, n22, n23, n24, n25, n26, n27, n28, n29, n30]

/-- A lowercase hexadecimal digit byte is a byte. -/
theorem hexLower_lt256 {n : Nat} (h : n < 16) : hexLower n < 256 := by
  unfold hexLower
  split_ifs <;> omega

/-- Escaping a byte yields bytes. -/
theorem escByte_lt256 {b : Nat} (h : b < 256) : ∀ x ∈ escByte b, x < 256 := by
  intro x hx
  unfold escByte at hx
  split_ifs at hx with h1 h2 h3 h4 h5 h6 h7 h8 <;>
    simp only [List.mem_cons, List.not_mem_nil, or_false] at hx
  · rcases hx with rfl | rfl <;> decide
  · rcases hx with rfl | rfl <;> decide
  · rcases hx with rfl | rfl <;> decide
  · rcases hx with rfl | rfl <;> decide
  · rcases hx with rfl | rfl <;> decide
  · rcases hx with rfl | rfl <;> decide
  · rcases hx with rfl | rfl <;> decide
  · rcases hx with rfl | rfl | rfl | rfl | rfl | rfl
    · decide
    · decide
    · decide
    · decide
    · exact hexLower_lt256 (by omega)
    · exact hexLower_lt256 (by omega)
  · subst hx
    exact h

/-- Escaping a byte string yields bytes. -/
theorem escStr_lt256 {s : Str} (h : ∀ b ∈ s, b < 256) : ∀ x ∈ escStr s, x < 256 := by
  intro x hx
  rcases List.mem_flatMap.mp hx with ⟨b, hb, hxb⟩
  exact escByte_lt256 (h b hb) x hxb

/-- A quoted string literal consists of bytes. -/
theorem jsonQuote_lt256 {s : Str} (h : ∀ b ∈ s, b < 256) : ∀ x ∈ jsonQuote s, x < 256 := by
  intro x hx
  simp only [jsonQuote, List.mem_cons, List.mem_append, List.mem_singleton] at hx
  rcases hx with (rfl | hx) | (rfl | h0)
  · decide
  · exact escStr_lt256 h x hx
  · decide
  · exact absurd h0 (List.not_mem_nil x)

/-- An emitted JSON value consists of bytes. -/
theorem emitVal_lt256 {v : JVal} (h : ∀ s, v = JVal.str s → ∀ b ∈ s, b < 256) :
    ∀ x ∈ emitVal v, x < 256 := by
  intro x hx
  cases v with
  | str s => exact jsonQuote_lt256 (h s rfl) x hx
  | num n =>
    have := natToDec_mem n x hx
    omega

/-- An emitted pair consists of bytes. -/
theorem emitPair_lt256 {p : Str × JVal} (hk : ∀ b ∈ p.1, b < 256)
    (hv : ∀ s, p.2 = JVal.str s → ∀ b ∈ s, b < 256) : ∀ x ∈ emitPair p, x < 256 := by
  intro x hx
  simp only [emitPair, List.mem_append, List.mem_singleton] at hx
  rcases hx with (hx | rfl) | hx
  · exact jsonQuote_lt256 hk x hx
  · decide
  · exact emitVal_lt256 hv x hx

/-- An emitted pair list consists of bytes. -/
theorem emitPairs_lt256 : ∀ ps : List (Str × JVal),
    (∀ p ∈ ps, (∀ b ∈ p.1, b < 256) ∧ (∀ s, p.2 = JVal.str s → ∀ b ∈ s, b < 256)) →
    ∀ x ∈ emitPairs ps, x < 256 := by
  intro ps
  induction ps with
  | nil => intro _ x hx; simp [emitPairs] at hx
  | cons p tl ih =>
    intro h x hx
    rcases tl with _ | ⟨q, tq⟩
    · exact emitPair_lt256 (h p (by simp)).1 (h p (by simp)).2 x (by simpa [emitPairs] using hx)
    · simp only [emitPairs, List.mem_append, List.mem_cons] at hx
      rcases hx with hx | rfl | hx
      · exact emitPair_lt256 (h p (by simp)).1 (h p (by simp)).2 x hx
      · decide
      · exact ih (fun r hr => h r (List.mem_cons_of_mem p hr)) x hx

/-- Membership in an optional singleton pair. -/
theorem mem_optPair {α β : Type} (o : Option α) (f : α → β) (p : β)
    (h : p ∈ (o.map f).toList) : ∃ a, o = some a ∧ p = f a := by
  cases o with
  | none => simp at h
  | some a =>
    simp at h
    exact ⟨a, rfl, h⟩

/-- A well-formed record serializes to a byte string. -/
theorem stringify_lt256 (t : GTokens) (hwf : tokensWFb t = true) :
    ∀ b ∈ stringifyTokens t, b < 256 := by
  have hwf2 := hwf
  simp only [tokensWFb, strWFb, Bool.and_eq_true, List.all_eq_true, decide_eq_true_eq] at hwf2
  obtain ⟨⟨⟨⟨hat, hrt⟩, hsc⟩, htt⟩, hit⟩ := hwf2
  intro b hb
  simp only [stringifyTokens, List.mem_cons, List.mem_append, List.mem_singleton] at hb
  rcases hb with (rfl | hb) | (rfl | h0)
  · decide
  · refine emitPairs_lt256 (tokenPairs t) ?_ b hb
    intro p hp
    simp only [tokenPairs, List.mem_cons, List.mem_append] at hp
    rcases hp with rfl | ((((hp | hp) | hp) | hp) | hp)
    · refine ⟨(by decide : ∀ b ∈ toB ("access_token"), b < 256), ?_⟩
      intro s hs b2 hb2
      injection hs with hse
      subst hse
      exact hat b2 hb2
    · obtain ⟨a, ho, rfl⟩ := mem_optPair _ _ _ hp
      refine ⟨(by decide : ∀ b ∈ toB ("refresh_token"), b < 256), ?_⟩
      intro s hs b2 hb2
      injection hs with hse
      subst hse
      rw [ho, Option.getD_some] at hrt
      exact hrt b2 hb2
    · obtain ⟨a, ho, rfl⟩ := mem_optPair _ _ _ hp
      refine ⟨(by decide : ∀ b ∈ toB ("scope"), b < 256), ?_⟩
      intro s hs b2 hb2
      injection hs with hse
      subst hse
      rw [ho, Option.getD_some] at hsc
      exact hsc b2 hb2
    · obtain ⟨a, ho, rfl⟩ := mem_optPair _ _ _ hp
      refine ⟨(by decide : ∀ b ∈ toB ("token_type"), b < 256), ?_⟩
      intro s hs b2 hb2
      injection hs with hse
      subst hse
      rw [ho, Option.getD_some] at htt
      exact htt b2 hb2
    · obtain ⟨a, ho, rfl⟩ := mem_optPair _ _ _ hp
      refine ⟨(by decide : ∀ b ∈ toB ("expiry_date"), b < 256), ?_⟩
      intro s hs
      simp at hs
    · obtain ⟨a, ho, rfl⟩ := mem_optPair _ _ _ hp
      refine ⟨(by decide : ∀ b ∈ toB ("id_token"), b < 256), ?_⟩
      intro s hs b2 hb2
      injection hs with hse
      subst hse
      rw [ho, Option.getD_some] at hit
      exact hit b2 hb2
  · decide
  · exact absurd h0 (List.not_mem_nil b)

/-- The field list of a record never serializes to the empty string. -/
theorem emitPairs_cons_ne_nil (k : Str) (v : JVal) (ps : List (Str × JVal)) :
    emitPairs ((k, v) :: ps) ≠ [] := by
  rcases ps with _ | ⟨q, tq⟩ <;> simp [emitPairs, emitPair, jsonQuote]

/-- Parsing the store's own serialization of a record recovers it. -/
theorem parseTokensJson_stringify (t : GTokens) : parseTokensJson (stringifyTokens t) = some t := by
  have hnn : emitPairs (tokenPairs t) ≠ [] := by
    simp only [tokenPairs]
    exact emitPairs_cons_ne_nil _ _ _
  have hcond : ¬(emitPairs (tokenPairs t) ++ [125] = [125]) := by
    intro h
    have hlen := congrArg List.length h
    simp at hlen
    exact hnn hlen
  have hone : tokenPairs t ≠ [] := by simp [tokenPairs]
  have hfuel : (tokenPairs t).length ≤ (123 :: (emitPairs (tokenPairs t) ++ [125])).length := by
    have h1 := length_le_emitPairs (tokenPairs t)
    simp only [List.length_cons, List.length_append]
    simp
    omega
  rw [show stringifyTokens t = 123 :: (emitPairs (tokenPairs t) ++ [125]) from rfl]
  rw [parseTokensJson.eq_def]
  simp only []
  rw [if_neg hcond, parsePairs_emit (tokenPairs t) _ hone hfuel]
  simp only []
  rw [tokensOfPairs_tokenPairs]

/-- The cookie regex recovers the encoded value from the saved cookie string:
a non-empty, semicolon-free value under the `gTokens` name followed by a
`;`-led tail. -/
theorem cookieValue_save (enc tail : Str) (hne : enc ≠ []) (h59 : ∀ b ∈ enc, b ≠ 59)
    (hhead : tail.head? = some 59) :
    cookieValue (toB ("gTokens=") ++ (enc ++ tail)) = some enc := by
  have hstart : startsB (toB ("gTokens=")) (toB ("gTokens=") ++ (enc ++ tail)) = true :=
    startsB_append _ _
  have hdrop : (toB ("gTokens=") ++ (enc ++ tail)).drop 8 = enc ++ tail := by
    have h8 : (toB ("gTokens=")).length = 8 := rfl
    rw [← h8, List.drop_left]
  have htw : (enc ++ tail).takeWhile (fun b => b ≠ 59) = enc := by
    refine (takeWhile_append_all enc tail ?_ ?_).1
    · intro b hb
      simpa using h59 b hb
    · intro b hb
      rw [hhead] at hb
      have hb59 : b = 59 := (Option.some.inj hb).symm
      subst hb59
      simp
  have hm : matchGTokensAt (toB ("gTokens=") ++ (enc ++ tail)) = some enc := by
    unfold matchGTokensAt
    rw [if_pos hstart]
    simp only [hdrop, htw]
    rw [if_neg hne]
  unfold cookieValue
  rw [hm]

/-- Claim C6: full Token Store round trip — every credential record written
by `setTokensCookie` (JSON-stringify, percent-encode, `gTokens` cookie) and
read back by `getTokensFromCookie` (regex capture, percent-decode,
JSON-parse) is recovered with every field equal, for every host. -/
theorem claim_C6 :
    ∀ (t : GTokens) (host : Str), tokensWFb t = true →
      getTokensFromCookieM (setCookieStr t host) = some t := by
  intro t host hwf
  have hdec := percentDecode_encode _ (stringify_lt256 t hwf)
  have hparse := parseTokensJson_stringify t
  have h59 := percentEncode_ne59 (stringifyTokens t)
  have hne : percentEncode (stringifyTokens t) ≠ [] := by
    rw [show stringifyTokens t = 123 :: (emitPairs (tokenPairs t) ++ [125]) from rfl,
      percentEncode_cons, if_neg (by decide)]
    simp
  obtain ⟨tail, hs, hh⟩ : ∃ tail, setCookieStr t host
      = toB ("gTokens=") ++ (percentEncode (stringifyTokens t) ++ tail)
      ∧ tail.head? = some 59 := by
    unfold setCookieStr
    split_ifs with h
    · exact ⟨cookieAttrs, by simp, rfl⟩
    · exact ⟨cookieAttrs ++ toB ("; Secure"), by simp, rfl⟩
  rw [hs]
  unfold getTokensFromCookieM
  rw [cookieValue_save _ _ hne h59 hh]
  simp [hdec, hparse]

/-- Claim C6 witness: the round trip evaluated on a record exercising quote,
backslash, control-byte, high-byte, space and numeric content, on a
non-local host (the `Secure` branch). -/
theorem claim_C6_witness :
    tokensWFb c6Tokens = true ∧
    getTokensFromCookieM (setCookieStr c6Tokens (toB ("app.example.com"))) = some c6Tokens :=
  ⟨by decide, claim_C6 c6Tokens (toB ("app.example.com")) (by decide)⟩

/-!
## Claims about the Token Refresher and the Authenticated Call Wrapper
-/

/-- Claim C1: for every wrapped call whose first builder invocation is a
non-ok 401 and whose refresh succeeds, the refresher runs exactly once, the
Token Store cookie is written exactly once (with the refreshed record), the
builder is re-invoked exactly once with the refreshed access token, and that
second response is returned verbatim whatever its status; there is no third
invocation.  Stated for both copies of the wrapper (`withRefresh` of
api/workspace.js, and `withAutoRefresh` of api/sheets/read_by_search.ts
together with its call-site cookie write). -/
theorem claim_C1 :
    (∀ (δ : Type) (tokens : GTokens) (call : Str → JResp δ) (renv : RefreshEnv) (t2 : GTokens),
      (call tokens.access_token).ok = false →
      (call tokens.access_token).status = 401 →
      (refreshAccessTokenW tokens renv).result = .ok t2 →
      withRefreshW tokens call renv =
        ⟨.ok (t2, call t2.access_token), [tokens.access_token, t2.access_token], 1,
          (refreshAccessTokenW tokens renv).netCalls, [t2]⟩)
    ∧ (∀ (δ : Type) (tokens : GTokens) (call : Str → JResp δ) (renv : RefreshEnv) (t2 : GTokens),
      (call tokens.access_token).ok = false →
      (call tokens.access_token).status = 401 →
      (refreshAccessTokenR tokens renv).result = .ok t2 →
      withAutoRefreshR tokens call renv =
        ⟨.ok ⟨t2, (call t2.access_token).ok, (call t2.access_token).status,
            (call t2.access_token).data, true⟩,
          [tokens.access_token, t2.access_token], 1, (refreshAccessTokenR tokens renv).netCalls⟩
        ∧ autoRefreshCookieWrites (withAutoRefreshR tokens call renv).result = [t2]) := by
  constructor
  · intro δ tokens call renv t2 hok hst hr
    simp only [withRefreshW, hok, hst]
    simp [hr]
  · intro δ tokens call renv t2 hok hst hr
    simp only [withAutoRefreshR, hok, hst]
    simp [hr, autoRefreshCookieWrites]

/-- Claim C1 witness: a concrete stale-token run where the first call is 401
and the refresh succeeds. -/
theorem claim_C1_witness :
    (c1Call c1Tokens.access_token).ok = false ∧
    (c1Call c1Tokens.access_token).status = 401 ∧
    (refreshAccessTokenW c1Tokens c1Renv).result = .ok c1T2 ∧
    (refreshAccessTokenR c1Tokens c1Renv).result = .ok c1T2 ∧
    withRefreshW c1Tokens c1Call c1Renv =
      ⟨.ok (c1T2, c1Call c1T2.access_token), [c1Tokens.access_token, c1T2.access_token], 1,
        (refreshAccessTokenW c1Tokens c1Renv).netCalls, [c1T2]⟩ ∧
    autoRefreshCookieWrites (withAutoRefreshR c1Tokens c1Call c1Renv).result = [c1T2] :=
  ⟨rfl, rfl, rfl, rfl,
    claim_C1.1 Nat c1Tokens c1Call c1Renv c1T2 rfl rfl rfl,
    (claim_C1.2 Nat c1Tokens c1Call c1Renv c1T2 rfl rfl rfl).2⟩

/-- Claim C2 counterexample: a first-call 401 whose refresh is rejected by
the provider.  The wrapper then writes nothing to the Token Store and never
re-invokes the builder — it propagates the refresh error — so the claimed
"persist regardless of whether the refresh succeeded, and re-invoke exactly
once" is false on the code. -/
theorem claim_C2_counterexample :
    (c2Call c2Tokens.access_token).ok = false ∧
    (c2Call c2Tokens.access_token).status = 401 ∧
    (withRefreshW c2Tokens c2Call c2Renv).cookieWrites = [] ∧
    (withRefreshW c2Tokens c2Call c2Renv).builderCalls = [c2Tokens.access_token] ∧
    (withRefreshW c2Tokens c2Call c2Renv).result = .error .providerRejected ∧
    autoRefreshCookieWrites (withAutoRefreshR c2Tokens c2Call c2Renv).result = [] ∧
    (withAutoRefreshR c2Tokens c2Call c2Renv).builderCalls = [c2Tokens.access_token] :=
  ⟨rfl, rfl, rfl, rfl, rfl, rfl, rfl⟩

/-- Claim C2 (amended): when the first builder invocation is a non-ok 401 the
refresher is invoked exactly once; if it succeeds, the refreshed record is
persisted exactly once and the builder re-invoked exactly once with the
refreshed access token, that second response being returned verbatim; if it
fails, the failure propagates — the Token Store is not written and the
builder is not re-invoked.  Stated for both copies of the wrapper. -/
theorem claim_C2 :
    ∀ (δ : Type) (tokens : GTokens) (call : Str → JResp δ) (renv : RefreshEnv),
      (call tokens.access_token).ok = false →
      (call tokens.access_token).status = 401 →
      ((withRefreshW tokens call renv).refreshCalls = 1 ∧
        (withAutoRefreshR tokens call renv).refreshCalls = 1) ∧
      (∀ t2, (refreshAccessTokenW tokens renv).result = .ok t2 →
        (withRefreshW tokens call renv).cookieWrites = [t2] ∧
        (withRefreshW tokens call renv).builderCalls = [tokens.access_token, t2.access_token] ∧
        (withRefreshW tokens call renv).result = .ok (t2, call t2.access_token)) ∧
      (∀ e, (refreshAccessTokenW tokens renv).result = .error e →
        (withRefreshW tokens call renv).cookieWrites = [] ∧
        (withRefreshW tokens call renv).builderCalls = [tokens.access_token] ∧
        (withRefreshW tokens call renv).result = .error e) ∧
      (∀ t2, (refreshAccessTokenR tokens renv).result = .ok t2 →
        autoRefreshCookieWrites (withAutoRefreshR tokens call renv).result = [t2] ∧
        (withAutoRefreshR tokens call renv).builderCalls = [tokens.access_token, t2.access_token]) ∧
      (∀ e, (refreshAccessTokenR tokens renv).result = .error e →
        autoRefreshCookieWrites (withAutoRefreshR tokens call renv).result = [] ∧
        (withAutoRefreshR tokens call renv).builderCalls = [tokens.access_token]) := by
  intro δ tokens call renv hok hst
  refine ⟨⟨?_, ?_⟩, ?_, ?_, ?_, ?_⟩
  · simp only [withRefreshW, hok, hst]
    simp
    rcases h : (refreshAccessTokenW tokens renv).result with e | t2 <;> simp [h]
  · simp only [withAutoRefreshR, hok, hst]
    simp
    rcases h : (refreshAccessTokenR tokens renv).result with e | t2 <;> simp [h]
  · intro t2 hr
    simp only [withRefreshW, hok, hst]
    simp [hr]
  · intro e hr
    simp only [withRefreshW, hok, hst]
    simp [hr]
  · intro t2 hr
    simp only [withAutoRefreshR, hok, hst]
    simp [hr, autoRefreshCookieWrites]
  · intro e hr
    simp only [withAutoRefreshR, hok, hst]
    simp [hr, autoRefreshCookieWrites]

/-- Claim C2 witness: the amended statement applied to the concrete
rejected-refresh run of the counterexample. -/
theorem claim_C2_witness :
    (c2Call c2Tokens.access_token).ok = false ∧
    (c2Call c2Tokens.access_token).status = 401 ∧
    (refreshAccessTokenW c2Tokens c2Renv).result = .error .providerRejected ∧
    (withRefreshW c2Tokens c2Call c2Renv).cookieWrites = [] ∧
    (withRefreshW c2Tokens c2Call c2Renv).builderCalls = [c2Tokens.access_token] ∧
    (withRefreshW c2Tokens c2Call c2Renv).result = .error .providerRejected :=
  ⟨rfl, rfl, rfl,
    (claim_C2 Nat c2Tokens c2Call c2Renv rfl rfl).2.2.1 .providerRejected rfl⟩

/-- Claim C3: for every credential set whose refresh token is absent, both
copies of `refreshAccessToken` fail immediately with the no-refresh-token
error and perform zero network calls. -/
theorem claim_C3 :
    ∀ (tokens : GTokens) (renv : RefreshEnv), tokens.refresh_token = none →
      refreshAccessTokenW tokens renv = ⟨.error .noRefreshToken, 0⟩ ∧
      refreshAccessTokenR tokens renv = ⟨.error .noRefreshToken, 0⟩ := by
  intro tokens renv h
  constructor <;> · simp only [refreshAccessTokenW, refreshAccessTokenR, h]

/-- Claim C3 witness: a concrete refresh-token-free record. -/
theorem claim_C3_witness :
    c7Tokens.refresh_token = none ∧
    refreshAccessTokenW c7Tokens c1Renv = ⟨.error .noRefreshToken, 0⟩ ∧
    refreshAccessTokenR c7Tokens c1Renv = ⟨.error .noRefreshToken, 0⟩ :=
  ⟨rfl, (claim_C3 c7Tokens c1Renv rfl).1, (claim_C3 c7Tokens c1Renv rfl).2⟩

/-- Claim C10: neither copy of the Token Refresher ever modifies the
`refresh_token` field — for every input record and every provider response,
a successful refresh returns the input's refresh token unchanged (a newly
issued `refresh_token` in the provider's response is discarded, as the
construction never reads that field). -/
theorem claim_C10 :
    ∀ (tokens : GTokens) (renv : RefreshEnv) (t2 : GTokens),
      ((refreshAccessTokenW tokens renv).result = .ok t2 →
        t2.refresh_token = tokens.refresh_token) ∧
      ((refreshAccessTokenR tokens renv).result = .ok t2 →
        t2.refresh_token = tokens.refresh_token) := by
  intro tokens renv t2
  constructor <;> intro h
  · rcases hrt : tokens.refresh_token with _ | rt
    · simp only [refreshAccessTokenW, hrt] at h
      exact absurd h (by simp)
    · simp only [refreshAccessTokenW, hrt] at h
      split_ifs at h
      simp_all
      subst h
      simp [hrt]
  · rcases hrt : tokens.refresh_token with _ | rt
    · simp only [refreshAccessTokenR, hrt] at h
      exact absurd h (by simp)
    · simp only [refreshAccessTokenR, hrt] at h
      split_ifs at h
      simp_all
      subst h
      simp [hrt]

/-- Claim C10 witness: under `c1Renv` the provider even issues a new refresh
token, and the refreshed record still carries the old one. -/
theorem claim_C10_witness :
    c1Renv.data.refresh_token = some (toB ("newref")) ∧
    (refreshAccessTokenW c1Tokens c1Renv).result = .ok c1T2 ∧
    c1T2.refresh_token = c1Tokens.refresh_token :=
  ⟨rfl, rfl, (claim_C10 c1Tokens c1Renv c1T2).1 rfl⟩

/-!
## Claims about the workspace handler pipeline
-/

/-- Claim C7 counterexample: a record whose access token is expired (epoch
expiry) and which has no refresh token passes the auth gate, and the request
proceeds to a provider call (here `drive.listroot`, whose builder is invoked
once) instead of failing with an authentication error — the code checks only
the presence of `access_token`, never its expiry. -/
theorem claim_C7_counterexample :
    c7Tokens.refresh_token = none ∧ c7Tokens.expiry_date = some 0 ∧
    workspaceHandle (some c7Tokens) (fun tk => actDriveListRootM tk c7Env c7Renv) =
      ⟨200, true, [toB ("x")], 0, 0, []⟩ :=
  ⟨rfl, rfl, rfl⟩

/-- Claim C7 (amended): the workspace handler rejects a request with no
credential cookie, or whose record's access token is missing/empty, with a
401 authentication failure and zero provider calls; expiry is not checked —
any record with a non-empty access token passes the gate and its action (and
hence the action's first provider call) proceeds. -/
theorem claim_C7 :
    (∀ (topt : Option GTokens) (act : GTokens → ActionOut),
      (topt = none ∨ ∃ t, topt = some t ∧ t.access_token = []) →
      workspaceHandle topt act = authFailOut)
    ∧ (∀ (t : GTokens) (act : GTokens → ActionOut),
      t.access_token ≠ [] → workspaceHandle (some t) act = act t) := by
  constructor
  · intro topt act h
    rcases h with h | ⟨t, rfl, h⟩
    · subst h; rfl
    · simp [workspaceHandle, h]
  · intro t act h
    simp [workspaceHandle, h]

/-- Claim C7 witness: the amended statement applied to an absent cookie and
to the concrete expired record. -/
theorem claim_C7_witness :
    workspaceHandle none (fun tk => actDriveListRootM tk c7Env c7Renv) = authFailOut ∧
    (c7Tokens.access_token ≠ [] ∧
      workspaceHandle (some c7Tokens) (fun tk => actDriveListRootM tk c7Env c7Renv) =
        actDriveListRootM c7Tokens c7Env c7Renv) :=
  ⟨claim_C7.1 none _ (Or.inl rfl),
    by decide,
    claim_C7.2 c7Tokens _ (by decide)⟩

/-- Claim C4: whenever a non-empty candidate list contains exactly one
candidate (as a record value) whose name equals the queried name
case-sensitively, the resolver selects that exact match — ahead of every
substring-only match and regardless of every candidate's modification
time. -/
theorem claim_C4 :
    ∀ (query : Str) (files : List DFile) (e : DFile),
      files ≠ [] → e ∈ files → e.name = query →
      (∀ f ∈ files, f.name = query → f = e) →
      selectFile query files = some e := by
  intro query files e hne hmem hname huniq
  have h := sortJs_head_exact query e hname files [] huniq (Or.inr ⟨hmem, by simp⟩)
  rcases files with _ | ⟨f, fs⟩
  · exact absurd rfl hne
  · simpa [selectFile, sortJs] using h

/-- Claim C4 witness: the spec's own example — `"Budget Q1"` (substring-only,
older) and `"Budget"` (exact, newer) searched for `"Budget"` select the
exact match; and the mirrored timestamps select it too. -/
theorem claim_C4_witness :
    (selectFile (toB ("Budget"))
      [⟨toB ("id1"), toB ("Budget Q1"), toB ("2024-01-01")⟩, c5New] = some c5New) ∧
    (selectFile (toB ("Budget"))
      [⟨toB ("id1"), toB ("Budget Q1"), toB ("2024-06-01")⟩, c5Old] = some c5Old) :=
  ⟨claim_C4 (toB ("Budget")) _ c5New (by decide) (by decide) (by decide) (by decide),
    claim_C4 (toB ("Budget")) _ c5Old (by decide) (by decide) (by decide) (by decide)⟩

/-- Claim C5: evaluation of the resolver at two exact (case-sensitive) name
matches with different modification timestamps.  `c5New`'s timestamp is the
lexicographically greater (most recent) one, yet the resolver selects
`c5Old`: the comparator answers `-1` for an exact-match first argument
before ever consulting the timestamp key, so for two exact matches it is
inconsistent (`-1` in both orders, shown below) and the `localeCompare`
tie-break the spec describes is dead code on that case. -/
theorem claim_C5_code_evaluation :
    c5New.name = toB ("Budget") ∧ c5Old.name = toB ("Budget") ∧
    lexCmp c5New.modifiedTime c5Old.modifiedTime = 1 ∧
    fileCmp (toB ("Budget")) c5New c5Old = -1 ∧
    fileCmp (toB ("Budget")) c5Old c5New = -1 ∧
    selectFile (toB ("Budget")) [c5New, c5Old] = some c5Old := by
  refine ⟨rfl, rfl, by decide, by decide, by decide, rfl⟩

/-- Claim C8: a sheets append-row request whose `fileName` is non-empty after
trimming but whose `values` is empty or not an array is answered 400 by the
validation step, before any folder/file resolution or provider call — the
recorded outbound activity is empty. -/
theorem claim_C8 :
    ∀ (δ : Type) (b : AppendBody) (tokens : GTokens) (env : WsEnv δ) (renv : RefreshEnv),
      trimJs (jsOrStr b.fileName []) ≠ [] →
      (b.values = none ∨ b.values = some []) →
      actSheetsAppendRowM b tokens env renv = ⟨400, false, [], 0, 0, []⟩ := by
  intro δ b tokens env renv h1 h2
  have hv : b.values.getD [] = [] := by rcases h2 with h | h <;> simp [h]
  simp [actSheetsAppendRowM, h1, hv]

/-- Claim C8 witness: a concrete request with a file name and a non-array
`values`. -/
theorem claim_C8_witness :
    trimJs (jsOrStr (some (toB (" Master dataset "))) []) ≠ [] ∧
    actSheetsAppendRowM ⟨some (toB (" Master dataset ")), none, none, none⟩ c7Tokens c7Env c7Renv =
      ⟨400, false, [], 0, 0, []⟩ :=
  ⟨by decide,
    claim_C8 Nat ⟨some (toB (" Master dataset ")), none, none, none⟩ c7Tokens c7Env c7Renv
      (by decide) (Or.inl rfl)⟩

/-- Claim C9: a realtime-audio negotiation request whose `Content-Type` does
not contain `application/sdp` never reaches the outbound proxy call (zero
proxy calls on every such request, whatever else is wrong with it), and a
well-routed one — POST, allowed origin, API key configured — is answered 400
by the content-type check. -/
theorem claim_C9 :
    (∀ (method origin ct : Str) (apiKey : Option Str) (mainOrigin : Str) (env : OfferEnv),
      hasSubB (toB ("application/sdp")) ct = false →
      (offerHandler method origin ct apiKey mainOrigin env).proxyCalls = 0)
    ∧ (∀ (method origin ct : Str) (apiKey : Option Str) (mainOrigin : Str) (env : OfferEnv),
      method = toB ("POST") →
      isAllowedOriginM mainOrigin origin = true →
      jsOrStr apiKey [] ≠ [] →
      hasSubB (toB ("application/sdp")) ct = false →
      offerHandler method origin ct apiKey mainOrigin env = ⟨400, 0⟩) := by
  constructor
  · intro method origin ct apiKey mainOrigin env h
    unfold offerHandler
    split_ifs with h1 h2 h3 h4 <;> simp_all
  · intro method origin ct apiKey mainOrigin env hm ho hk h
    unfold offerHandler
    split_ifs with h1 h2 h3 h4 <;> simp_all

/-- Claim C9 witness: a concrete JSON-typed POST from an allowed origin with
a configured key is answered 400 with no proxy call. -/
theorem claim_C9_witness :
    hasSubB (toB ("application/sdp")) (toB ("application/json")) = false ∧
    offerHandler (toB ("POST")) (toB ("https://example.com")) (toB ("application/json"))
      (some (toB ("sk-1"))) [] ⟨true, 200⟩ = ⟨400, 0⟩ :=
  ⟨by decide,
    claim_C9.2 (toB ("POST")) (toB ("https://example.com")) (toB ("application/json"))
      (some (toB ("sk-1"))) [] ⟨true, 200⟩ rfl (by decide) (by decide) (by decide)⟩

end VaProxy
